import Mathlib

/-!
Shallow embedding of the Çorlu logistics CVRPTW / Ant-Colony-Optimization core.

Source modules embedded here:
* `src/optimization/ant.py` — the per-vehicle tour-construction agent (`Ant`);
* `src/optimization/optimizer.py` — the colony optimizer (`ACOptimizer.run`,
  its cost model and the MMAS pheromone update / bound derivation);
* `src/utils.py` — `OSRMDistanceProvider.get_travel_info` (the provider the
  optimizer instantiates) and `DistanceCache.get_distance`;
* `src/optimization/distance_provider.py` — the older
  `OSRMDistanceProvider.get_distance` network provider variant.

Modelling conventions:
* Python floats are modelled as `ℚ` wherever the code manipulates finite
  values; the `float('inf')` sentinel is modelled as `⊤ : WithTop ℚ`
  (respectively `Option`-`none` / a missing cache entry) at the points where
  the code produces or compares it (iteration cost, global-best cost,
  provider results).  The MMAS pheromone-bound formula uses a real-number
  power `p_best ** (1/n)`, so that one definition lives in `ℝ`.
* The weighted roulette-wheel choice of `random.choices` /`random.choice`
  in `Ant._select_next_node` is abstracted by an adversarial index stream
  `σ : ℕ → ℕ`: the selection returns `candidates[σ k % len candidates]`.
  Every outcome the Python code can sample is obtained for some stream, so
  universally quantified properties over all streams cover all runs.
  Pheromone values and the `alpha`/`beta` exponents influence only the
  sampling weights, hence they are absorbed by the stream abstraction and
  the run model does not carry the pheromone store; the pheromone update
  strategies are embedded separately for the claims that concern them.
* The memoized travel-info provider is modelled inside the run as a pure
  function `ℕ → ℕ → ℚ × ℚ`: after the first successful lookup of a pair the
  Python cache returns a fixed value for it, and a failed (uncached,
  infinite) lookup only ever excludes a candidate, which the arbitrary pure
  function also covers.  The providers' cache/state behaviour itself is
  embedded explicitly (with backend-call counting) for the caching claims.
-/

namespace CorluACO

/-- One entry of `nodes_info`: demand, `[earliest, latest]` time window and
service time, as read by `Ant._select_next_node` / `Ant.move_to_node`. -/
structure NodeInfo where
  demand : ℚ
  time_window : ℚ × ℚ
  service_time : ℚ

/-- The travel oracle consulted during construction: distance and duration
between two nodes (the values `get_travel_info` returns during a run). -/
abbrev TravelOracle := ℕ → ℕ → ℚ × ℚ

/-- State of one `Ant` (src/optimization/ant.py, `__init__`/`reset`). -/
structure AntState where
  start_node : ℕ
  capacity : ℚ
  tours : List (List ℕ)
  total_distance : ℚ
  current_tour : List ℕ
  current_load : ℚ
  visited_nodes : List ℕ
  current_time : ℚ
  total_wait_time : ℚ
  time_window_violated : Bool
deriving DecidableEq

/-- Source `Ant.reset` / the state a fresh `Ant(graph, start, capacity, provider)`
is put into: empty tour list, interior tour `[start]`, zero load and clock,
visited set `{start}`. -/
def antReset (start : ℕ) (cap : ℚ) : AntState :=
  { start_node := start
    capacity := cap
    tours := []
    total_distance := 0
    current_tour := [start]
    current_load := 0
    visited_nodes := [start]
    current_time := 0
    total_wait_time := 0
    time_window_violated := false }

/-- The node the ant currently sits on: `self.current_tour[-1]`.  The
default is never used on reachable states (the current tour is nonempty). -/
def lastNode (a : AntState) : ℕ := a.current_tour.getLastD a.start_node

/-- Source `Ant.move_to_node(next_node, all_nodes_info)`.  The depot branch closes
and stores the current tour and resets interior tour and load; the stop
branch records a soft time-window violation, wait time, service time, load,
distance and the advanced clock. -/
def AntState.move_to_node (ti : TravelOracle) (info : ℕ → NodeInfo)
    (a : AntState) (next_node : ℕ) : AntState :=
  let dt := ti (lastNode a) next_node
  let arrival_time := a.current_time + dt.2
  if next_node = a.start_node then
    { a with
      current_tour := [a.start_node]
      tours := a.tours ++ [a.current_tour ++ [a.start_node]]
      total_distance := a.total_distance + dt.1
      current_time := arrival_time
      current_load := 0 }
  else
    let ni := info next_node
    let wait_time := max 0 (ni.time_window.1 - arrival_time)
    { a with
      time_window_violated := a.time_window_violated || decide (ni.time_window.2 < arrival_time)
      total_wait_time := a.total_wait_time + wait_time
      current_time := arrival_time + wait_time + ni.service_time
      current_tour := a.current_tour ++ [next_node]
      visited_nodes := next_node :: a.visited_nodes
      current_load := a.current_load + ni.demand
      total_distance := a.total_distance + dt.1 }

/-- The feasibility filter of `Ant._select_next_node`: unvisited stops of
the shared pool whose demand fits the remaining capacity and whose arrival
time does not exceed the latest time-window bound. -/
def candidate_nodes (ti : TravelOracle) (info : ℕ → NodeInfo)
    (pool : List ℕ) (a : AntState) : List ℕ :=
  pool.filter fun node_id =>
    decide (node_id ∉ a.visited_nodes) &&
    decide (a.current_load + (info node_id).demand ≤ a.capacity) &&
    decide (a.current_time + (ti (lastNode a) node_id).2 ≤ (info node_id).time_window.2)

/-- Source `Ant._select_next_node`: `none` when no candidate qualifies, otherwise
one of the candidates; the biased roulette-wheel draw is abstracted by the
index stream `σ` (see the header comment). -/
def select_next_node (ti : TravelOracle) (info : ℕ → NodeInfo) (σ : ℕ → ℕ)
    (k : ℕ) (pool : List ℕ) (a : AntState) : Option ℕ :=
  let cands := candidate_nodes ti info pool a
  cands.get? (σ k % cands.length)

/-- The inner `while True` construction loop of `ACOptimizer.run`: select a
next stop, move to it, delete it from the shared pool, until no feasible
move remains.  `fuel` bounds the recursion; each step removes the chosen
stop from the pool, so `pool.length + 1` fuel reproduces the Python loop
exactly.  Returns the ant, the remaining pool, and the stream position. -/
def build_tours (ti : TravelOracle) (info : ℕ → NodeInfo) (σ : ℕ → ℕ) :
    ℕ → ℕ → AntState → List ℕ → AntState × List ℕ × ℕ
  | 0, k, a, pool => (a, pool, k)
  | fuel + 1, k, a, pool =>
    match select_next_node ti info σ k pool a with
    | none => (a, pool, k)
    | some next_node =>
        build_tours ti info σ fuel (k + 1)
          (a.move_to_node ti info next_node) (pool.erase next_node)

/-- Source `Ant.finalize_solution`: if the current tour does not already end at
the depot, append a closing depot move and store the tour. -/
def AntState.finalize_solution (ti : TravelOracle) (a : AntState) : AntState :=
  if a.current_tour ≠ [] ∧ a.current_tour.getLast? ≠ some a.start_node then
    let dt := ti (lastNode a) a.start_node
    { a with
      current_tour := a.current_tour ++ [a.start_node]
      tours := a.tours ++ [a.current_tour ++ [a.start_node]]
      total_distance := a.total_distance + dt.1
      current_time := a.current_time + dt.2 }
  else a

/-- Result of the per-iteration colony construction: the processed ants
(in order), the stops left unvisited, and the consumed stream position. -/
structure ColonyResult where
  ants : List AntState
  pool : List ℕ
  rand_pos : ℕ

/-- The per-iteration agent loop of `ACOptimizer.run`: hand each vehicle
(in fleet order) the shared unvisited pool, stopping early (`break`) when
the pool is exhausted; each processed ant is reset, runs the construction
loop and is finalized. -/
def construct_colony (ti : TravelOracle) (info : ℕ → NodeInfo) (σ : ℕ → ℕ)
    (start : ℕ) : List ℚ → ℕ → List ℕ → ColonyResult
  | [], k, pool => ⟨[], pool, k⟩
  | cap :: caps, k, pool =>
    if pool.isEmpty then ⟨[], pool, k⟩
    else
      let r := build_tours ti info σ (pool.length + 1) k (antReset start cap) pool
      let a2 := r.1.finalize_solution ti
      let rest := construct_colony ti info σ start caps r.2.2 r.2.1
      ⟨a2 :: rest.ants, rest.pool, rest.rand_pos⟩

/-- Constant `ACOptimizer._TIME_PENALTY = 1_000_000_000`. -/
def TIME_PENALTY : ℚ := 1000000000

/-- Constant `ACOptimizer._WAIT_PENALTY_MULTIPLIER = 100`. -/
def WAIT_PENALTY_MULTIPLIER : ℚ := 100

/-- The colony cost formula shared by `ACOptimizer._calculate_cost` and the
inline computation in `ACOptimizer.run` (lines 222-227):
`base_cost + fixed_cost + time_penalty + wait_penalty`. -/
def colony_cost (vehicle_fixed_cost base_cost wait : ℚ) (violated : Bool)
    (num_tours : ℕ) : ℚ :=
  base_cost + (num_tours : ℚ) * vehicle_fixed_cost +
    (if violated then TIME_PENALTY else 0) + wait * WAIT_PENALTY_MULTIPLIER

/-- Source `colony_solution_tours`: the tours of all processed ants, in order. -/
def colony_tours (ants : List AntState) : List (List ℕ) :=
  (ants.map AntState.tours).flatten

/-- Source `num_tours` of `ACOptimizer.run` line 222: tours of length `> 2`. -/
def num_used_tours (tours : List (List ℕ)) : ℕ :=
  (tours.filter fun t => decide (2 < t.length)).length

/-- Source `colony_total_distance`: accumulated over the processed ants. -/
def colony_distance (ants : List AntState) : ℚ :=
  (ants.map AntState.total_distance).sum

/-- Source `colony_total_wait_time`: accumulated over the processed ants. -/
def colony_wait (ants : List AntState) : ℚ :=
  (ants.map AntState.total_wait_time).sum

/-- Source `colony_time_window_violated`: true when any processed ant's flag is. -/
def colony_violated (ants : List AntState) : Bool :=
  ants.any AntState.time_window_violated

/-- The iteration's `total_cost` (`ACOptimizer.run` lines 218-227): `⊤`
(`float('inf')`) when stops remain unvisited, else the cost formula. -/
def iteration_cost (vehicle_fixed_cost : ℚ) (ants : List AntState)
    (leftover : List ℕ) : WithTop ℚ :=
  if leftover.isEmpty then
    ((colony_cost vehicle_fixed_cost (colony_distance ants) (colony_wait ants)
        (colony_violated ants) (num_used_tours (colony_tours ants)) : ℚ) : WithTop ℚ)
  else ⊤

/-- Optimizer state observable through `ACOptimizer.run`'s return value. -/
structure RunState where
  global_best_solution : List (List ℕ)
  global_best_cost : WithTop ℚ
  cost_history : List (WithTop ℚ)
deriving DecidableEq

/-- One iteration of `ACOptimizer.run`: build the colony solution, compute
its cost, replace the global best on a strictly lower cost, and append the
(possibly updated) global best cost to the history. -/
def run_step (ti : TravelOracle) (info : ℕ → NodeInfo) (vehicle_fixed_cost : ℚ)
    (start : ℕ) (caps : List ℚ) (pool0 : List ℕ) (σ : ℕ → ℕ)
    (st : RunState) : RunState :=
  let r := construct_colony ti info σ start caps 0 pool0
  let total_cost := iteration_cost vehicle_fixed_cost r.ants r.pool
  if total_cost < st.global_best_cost then
    { global_best_solution := colony_tours r.ants
      global_best_cost := total_cost
      cost_history := st.cost_history ++ [total_cost] }
  else
    { st with cost_history := st.cost_history ++ [st.global_best_cost] }

/-- The initial optimizer state: empty best solution, infinite best cost. -/
def init_run_state : RunState := ⟨[], ⊤, []⟩

/-- Source `ACOptimizer.run(iterations)`: the per-iteration unvisited pool is the
node set minus the depot; `σ i` is iteration `i`'s choice stream. -/
def aco_run (ti : TravelOracle) (info : ℕ → NodeInfo) (vehicle_fixed_cost : ℚ)
    (start : ℕ) (caps : List ℚ) (node_ids : List ℕ) (σ : ℕ → ℕ → ℕ)
    (iterations : ℕ) : RunState :=
  (List.range iterations).foldl
    (fun st i =>
      run_step ti info vehicle_fixed_cost start caps
        (node_ids.filter fun n => decide (n ≠ start)) (σ i) st)
    init_run_state

/-- The unordered-pair cache key `tuple(sorted((u, v)))`. -/
def sortPair (u v : ℕ) : ℕ × ℕ := if u ≤ v then (u, v) else (v, u)

/-- Outcome of one OSRM HTTP query for an ordered coordinate pair. -/
inductive OsrmResponse where
  | ok (distance duration : ℚ)
  | noRoute
  | connectionError
deriving DecidableEq

/-- Result of one provider query: the returned value, the provider state
after the query, and how many backend computations the query performed. -/
structure QueryResult (α : Type) (ρ : Type) where
  value : α
  state : ρ
  backend_calls : ℕ

/-- State of `src/utils.py`'s `OSRMDistanceProvider`: node coordinates, the
routing backend (a function of the ordered coordinate pair, as in the
request URL), and the in-memory cache of (distance, duration) pairs. -/
structure TravelInfoProvider where
  node_coords : ℕ → Option (ℚ × ℚ)
  osrm_response : ℚ × ℚ → ℚ × ℚ → OsrmResponse
  cache : List ((ℕ × ℕ) × (ℚ × ℚ))

/-- Source `OSRMDistanceProvider.get_travel_info` of `src/utils.py`: identical
nodes cost `(0, 0)`; a cached pair is returned without a query; otherwise
the backend is queried and only a successful route is cached (duration is
converted to minutes); no-route and connection failures return `(inf, inf)`
uncached. -/
def get_travel_info (p : TravelInfoProvider) (u v : ℕ) :
    QueryResult (WithTop ℚ × WithTop ℚ) TravelInfoProvider :=
  if u = v then ⟨(0, 0), p, 0⟩
  else
    let edge := sortPair u v
    match p.cache.lookup edge with
    | some dt => ⟨((dt.1 : ℚ), (dt.2 : ℚ)), p, 0⟩
    | none =>
      match p.node_coords u, p.node_coords v with
      | some c1, some c2 =>
        match p.osrm_response c1 c2 with
        | .ok distance duration =>
            ⟨((distance : ℚ), ((duration / 60 : ℚ) : WithTop ℚ)),
              { p with cache := (edge, (distance, duration / 60)) :: p.cache }, 1⟩
        | .noRoute => ⟨(⊤, ⊤), p, 1⟩
        | .connectionError => ⟨(⊤, ⊤), p, 1⟩
      | _, _ => ⟨(⊤, ⊤), p, 0⟩

/-- State of the `OSRMDistanceProvider` variant in
`src/optimization/distance_provider.py` (distance-only cache that may hold
the infinite sentinel). -/
structure DistanceProviderNet where
  node_coords : ℕ → Option (ℚ × ℚ)
  osrm_response : ℚ × ℚ → ℚ × ℚ → OsrmResponse
  cache : List ((ℕ × ℕ) × WithTop ℚ)

/-- Source `OSRMDistanceProvider.get_distance` of
`src/optimization/distance_provider.py`: as `get_travel_info`, except that
a definitive no-route response is cached as `inf` while a connection
failure is returned uncached. -/
def DistanceProviderNet.get_distance (p : DistanceProviderNet) (u v : ℕ) :
    QueryResult (WithTop ℚ) DistanceProviderNet :=
  if u = v then ⟨0, p, 0⟩
  else
    let edge := sortPair u v
    match p.cache.lookup edge with
    | some d => ⟨d, p, 0⟩
    | none =>
      match p.node_coords u, p.node_coords v with
      | some c1, some c2 =>
        match p.osrm_response c1 c2 with
        | .ok distance _ =>
            ⟨(distance : ℚ), { p with cache := (edge, (distance : ℚ)) :: p.cache }, 1⟩
        | .noRoute => ⟨⊤, { p with cache := (edge, ⊤) :: p.cache }, 1⟩
        | .connectionError => ⟨⊤, p, 1⟩
      | _, _ => ⟨⊤, p, 0⟩

/-- State of `src/utils.py`'s `DistanceCache`: the shortest-path oracle
over the road graph (`⊤` on `NetworkXNoPath`/`NodeNotFound`) and the
memoization map. -/
structure DistanceCacheState where
  shortest_path_length : ℕ → ℕ → WithTop ℚ
  memory_cache : List ((ℕ × ℕ) × WithTop ℚ)

/-- Source `DistanceCache.get_distance`: `0` on identical nodes, cache hit
otherwise returned directly, and on a miss the shortest-path result —
including the infinite no-path sentinel — is cached under the sorted
pair. -/
def DistanceCacheState.get_distance (c : DistanceCacheState) (u v : ℕ) :
    QueryResult (WithTop ℚ) DistanceCacheState :=
  if u = v then ⟨0, c, 0⟩
  else
    match c.memory_cache.lookup (sortPair u v) with
    | some d => ⟨d, c, 0⟩
    | none =>
        ⟨c.shortest_path_length u v,
          { c with memory_cache :=
              (sortPair u v, c.shortest_path_length u v) :: c.memory_cache }, 1⟩

/-- The hypothesis of claim C5 for the network provider: the queried pair
is resolvable — identical nodes, an already cached pair, or coordinates
that the routing backend answers with a route. -/
def RouteExists (p : TravelInfoProvider) (u v : ℕ) : Prop :=
  u = v ∨ (p.cache.lookup (sortPair u v)).isSome = true ∨
    ∃ c1 c2 d t, p.node_coords u = some c1 ∧ p.node_coords v = some c2 ∧
      p.osrm_response c1 c2 = .ok d t

/-- The undirected edges `tuple(sorted((tour[i], tour[i+1])))` of a tour. -/
def tour_edges (t : List ℕ) : List (ℕ × ℕ) :=
  (t.zip t.tail).map fun p => sortPair p.1 p.2

/-- How many consecutive-pair occurrences in the given tours map to the
edge `e` (each occurrence deposits once in
`ACOptimizer._apply_pheromone_deposit`). -/
def edge_occurrences (e : ℕ × ℕ) (tours : List (List ℕ)) : ℕ :=
  (tours.map fun t => ((tour_edges t).filter fun x => decide (x = e)).length).sum

/-- Pheromone evaporation: every stored edge value is scaled by
`1 - rate`. -/
def evaporate {α : Type} [LinearOrderedField α] (rate : α)
    (ph : List ((ℕ × ℕ) × α)) : List ((ℕ × ℕ) × α) :=
  ph.map fun ev => (ev.1, ev.2 * (1 - rate))

/-- Source `ACOptimizer._apply_pheromone_deposit`: each stored edge gains
`amount` once per matching consecutive pair of the deposited tours. -/
def apply_pheromone_deposit {α : Type} [LinearOrderedField α]
    (tours : List (List ℕ)) (amount : α) (ph : List ((ℕ × ℕ) × α)) :
    List ((ℕ × ℕ) × α) :=
  ph.map fun ev => (ev.1, ev.2 + amount * (edge_occurrences ev.1 tours : α))

/-- The final clamping loop of `ACOptimizer._update_pheromones_mmas`:
`max(pheromone_min, min(value, pheromone_max))` on every stored edge. -/
def clamp_store {α : Type} [LinearOrderedField α] (pmin pmax : α)
    (ph : List ((ℕ × ℕ) × α)) : List ((ℕ × ℕ) × α) :=
  ph.map fun ev => (ev.1, max pmin (min ev.2 pmax))

/-- Source `ACOptimizer._update_pheromones_mmas`: evaporation by `mmas_rho`, a
`1/cost` deposit along the iteration-best tours when that cost is finite
(`none` models `float('inf')`) and positive, then the `[min, max]` clamp. -/
def update_pheromones_mmas {α : Type} [LinearOrderedField α]
    (mmas_rho pmin pmax : α) (best : List (List ℕ) × Option α)
    (ph : List ((ℕ × ℕ) × α)) : List ((ℕ × ℕ) × α) :=
  let ph1 := evaporate mmas_rho ph
  let ph2 :=
    match best.2 with
    | none => ph1
    | some c => if 0 < c then apply_pheromone_deposit best.1 (1 / c) ph1 else ph1
  clamp_store pmin pmax ph2

/-- Source `ACOptimizer._update_mmas_pheromone_limits` under a finite global-best
cost: `pheromone_max = 1/(mmas_rho * global_best_cost)` and the closed-form
`pheromone_min` with `p_best = 0.05` and problem size `n`; when the
denominator is not positive, the fallback `pheromone_max * 0.05` is used.
Returns `(pheromone_min, pheromone_max)`. -/
noncomputable def update_mmas_pheromone_limits (n : ℕ)
    (mmas_rho global_best_cost : ℝ) : ℝ × ℝ :=
  let pheromone_max := 1 / (mmas_rho * global_best_cost)
  let p_best : ℝ := 1 / 20
  let q := p_best ^ ((1 : ℝ) / (n : ℝ))
  let denominator := ((n : ℝ) / 2 - 1) * q
  let pheromone_min :=
    if 0 < denominator then pheromone_max * (1 - q) / denominator
    else pheromone_max * (1 / 20)
  (pheromone_min, pheromone_max)

/-- Spec-worded notion for claim C3: a used vehicle's tour "visits at
least one non-depot stop". -/
def visits_a_stop (start : ℕ) (t : List ℕ) : Bool :=
  t.any fun x => decide (x ≠ start)

/-- Demand sum of a list of stop ids. -/
def demandSum (info : ℕ → NodeInfo) (l : List ℕ) : ℚ :=
  (l.map fun n => (info n).demand).sum

/-- The interior (non-endpoint) stops of a tour. -/
def tourInterior (t : List ℕ) : List ℕ := (t.drop 1).dropLast

/-- Sum of the demands of a tour's interior stops. -/
def interiorDemand (info : ℕ → NodeInfo) (t : List ℕ) : ℚ :=
  demandSum info (tourInterior t)

/-- Well-formedness of a stored tour: begins and ends at the depot and has
no depot occurrence in its interior. -/
def TourShape (start : ℕ) (t : List ℕ) : Prop :=
  t.head? = some start ∧ t.getLast? = some start ∧ ∀ x ∈ tourInterior t, x ≠ start

/-- Construction invariant of an ant state: nonempty current tour headed by
the depot, depot-free interior, depot marked visited, the current load
equal to the interior demand of the current tour (and capacity-bounded as
soon as a stop was visited), and all stored tours well-formed and
capacity-feasible. -/
def AntInv (info : ℕ → NodeInfo) (a : AntState) : Prop :=
  a.current_tour ≠ [] ∧
  a.current_tour.head? = some a.start_node ∧
  (∀ x ∈ a.current_tour.drop 1, x ≠ a.start_node) ∧
  a.start_node ∈ a.visited_nodes ∧
  a.current_load = demandSum info (a.current_tour.drop 1) ∧
  (a.current_tour.drop 1 ≠ [] → a.current_load ≤ a.capacity) ∧
  ∀ t ∈ a.tours, TourShape a.start_node t ∧ interiorDemand info t ≤ a.capacity

/-! Concrete instances used by witnesses and counterexamples. -/

/-- A tiny problem instance: depot `1`, stop `2` with demand `2`, window
`[0, 100]`, service time `1`. -/
def info0 : ℕ → NodeInfo := fun n =>
  if n = 2 then ⟨2, (0, 100), 1⟩ else ⟨0, (0, 1440), 0⟩

/-- A stop whose demand `10` exceeds the test fleet's capacity `5`. -/
def info_heavy : ℕ → NodeInfo := fun n =>
  if n = 2 then ⟨10, (0, 100), 1⟩ else ⟨0, (0, 1440), 0⟩

/-- Constant travel oracle: distance `3`, duration `1`. -/
def ti0 : TravelOracle := fun _ _ => (3, 1)

/-- The always-first choice stream. -/
def sigma0 : ℕ → ℕ := fun _ => 0

/-- The always-first per-iteration choice streams. -/
def sigmaR : ℕ → ℕ → ℕ := fun _ _ => 0

/-- A network provider whose backend always finds a route. -/
def pOk : TravelInfoProvider :=
  ⟨fun _ => some (0, 0), fun _ _ => .ok 7 120, []⟩

/-- A network provider whose backend always answers "no route". -/
def pNoRoute : TravelInfoProvider :=
  ⟨fun _ => some (0, 0), fun _ _ => .noRoute, []⟩

/-- The distance-only network provider with a "no route" backend. -/
def dNoRoute : DistanceProviderNet :=
  ⟨fun _ => some (0, 0), fun _ _ => .noRoute, []⟩

/-- The distance-only network provider with a failing connection. -/
def dConnFail : DistanceProviderNet :=
  ⟨fun _ => some (0, 0), fun _ _ => .connectionError, []⟩

/-- A graph-backed distance cache whose shortest paths all have length 5. -/
def cacheG : DistanceCacheState := ⟨fun _ _ => ((5 : ℚ) : WithTop ℚ), []⟩

/-- An ant mid-tour at stop `2` (current tour `[1, 2]`, load `2`). -/
def antCx : AntState := ⟨1, 10, [], 0, [1, 2], 2, [2, 1], 0, 0, false⟩

/-- Travel oracle charging distance `5` and duration `2` on every leg. -/
def tiCx : TravelOracle := fun _ _ => (5, 2)

/-! Theorems. -/

theorem sortPair_comm (u v : ℕ) : sortPair u v = sortPair v u := by
  unfold sortPair
  by_cases h1 : u ≤ v
  · by_cases h2 : v ≤ u
    · have h : u = v := Nat.le_antisymm h1 h2
      subst h; rfl
    · rw [if_pos h1, if_neg h2]
  · rw [if_neg h1, if_pos (Nat.le_of_not_le h1)]

theorem lookup_cons_self {β : Type} (k : ℕ × ℕ) (x : β) (l : List ((ℕ × ℕ) × β)) :
    List.lookup k ((k, x) :: l) = some x := by
  simp [List.lookup]

/-- DistanceCache part of C5: diagonal, symmetric results, at most one
shortest-path computation for both query orders. -/
theorem distance_cache_symm (c : DistanceCacheState) (u v : ℕ) :
    c.get_distance u u = ⟨0, c, 0⟩ ∧
    ((c.get_distance u v).state.get_distance v u).value = (c.get_distance u v).value ∧
    (c.get_distance u v).backend_calls +
      ((c.get_distance u v).state.get_distance v u).backend_calls ≤ 1 := by
  refine ⟨by simp [DistanceCacheState.get_distance], ?_⟩
  by_cases huv : u = v
  · subst huv
    simp [DistanceCacheState.get_distance]
  · have hvu : v ≠ u := fun h => huv h.symm
    rcases hl : c.memory_cache.lookup (sortPair u v) with _ | d
    · simp only [DistanceCacheState.get_distance, if_neg huv, if_neg hvu, hl]
      rw [sortPair_comm v u, lookup_cons_self]
      exact ⟨rfl, by norm_num⟩
    · simp only [DistanceCacheState.get_distance, if_neg huv, if_neg hvu, hl]
      rw [sortPair_comm v u, hl]
      exact ⟨rfl, by norm_num⟩

/-- Network-provider part of C5: diagonal, and under an existing route the
two query orders agree with at most one OSRM request in total. -/
theorem travel_info_symm (p : TravelInfoProvider) (u v : ℕ) :
    get_travel_info p u u = ⟨(0, 0), p, 0⟩ ∧
    (RouteExists p u v →
      (get_travel_info (get_travel_info p u v).state v u).value =
        (get_travel_info p u v).value ∧
      (get_travel_info p u v).backend_calls +
        (get_travel_info (get_travel_info p u v).state v u).backend_calls ≤ 1) := by
  refine ⟨by simp [get_travel_info], fun hroute => ?_⟩
  by_cases huv : u = v
  · subst huv
    simp [get_travel_info]
  · have hvu : v ≠ u := fun h => huv h.symm
    rcases hl : p.cache.lookup (sortPair u v) with _ | dt
    · rcases hroute with h | h | ⟨c1, c2, d, t, hc1, hc2, hresp⟩
      · exact absurd h huv
      · rw [hl] at h; simp at h
      · simp only [get_travel_info, if_neg huv, if_neg hvu, hl, hc1, hc2, hresp]
        rw [sortPair_comm v u, lookup_cons_self]
        exact ⟨rfl, by norm_num⟩
    · simp only [get_travel_info, if_neg huv, if_neg hvu, hl]
      rw [sortPair_comm v u, hl]
      exact ⟨rfl, by norm_num⟩

/-- C5: for every pair of nodes for which a route exists, the travel-cost
providers (`DistanceCache.get_distance` of src/utils.py and
`OSRMDistanceProvider.get_travel_info` of src/utils.py) return the same
result for `(u, v)` and `(v, u)`, perform at most one underlying expensive
computation across the two query orders thanks to the sorted-pair
memoization key, and return zero cost on the diagonal `(u, u)`. -/
theorem provider_symmetry_memoization :
    (∀ (c : DistanceCacheState) (u v : ℕ),
      c.get_distance u u = ⟨0, c, 0⟩ ∧
      ((c.get_distance u v).state.get_distance v u).value = (c.get_distance u v).value ∧
      (c.get_distance u v).backend_calls +
        ((c.get_distance u v).state.get_distance v u).backend_calls ≤ 1) ∧
    (∀ (p : TravelInfoProvider) (u v : ℕ),
      get_travel_info p u u = ⟨(0, 0), p, 0⟩ ∧
      (RouteExists p u v →
        (get_travel_info (get_travel_info p u v).state v u).value =
          (get_travel_info p u v).value ∧
        (get_travel_info p u v).backend_calls +
          (get_travel_info (get_travel_info p u v).state v u).backend_calls ≤ 1)) :=
  ⟨distance_cache_symm, travel_info_symm⟩

/-- Witness for C5 at concrete providers: the graph cache answers `(2, 1)`
from the entry cached by the `(1, 2)` query, and so does the network
provider when the backend has a route. -/
theorem provider_symmetry_memoization_witness :
    ((cacheG.get_distance 1 2).state.get_distance 2 1).value =
      (cacheG.get_distance 1 2).value ∧
    RouteExists pOk 1 2 ∧
    (get_travel_info (get_travel_info pOk 1 2).state 2 1).value =
      (get_travel_info pOk 1 2).value :=
  ⟨(provider_symmetry_memoization.1 cacheG 1 2).2.1,
    Or.inr (Or.inr ⟨(0, 0), (0, 0), 7, 120, rfl, rfl, rfl⟩),
    ((provider_symmetry_memoization.2 pOk 1 2).2
      (Or.inr (Or.inr ⟨(0, 0), (0, 0), 7, 120, rfl, rfl, rfl⟩))).1⟩

/-- C6 counterexample: the network provider the optimizer instantiates
(`get_travel_info` of src/utils.py) does NOT store the no-route infinity:
at a provider whose backend definitively answers "no route", the first
query returns `(⊤, ⊤)` with the cache still empty, and a second identical
query performs another backend request. -/
theorem no_route_uncached_counterexample :
    (get_travel_info pNoRoute 1 2).value = (⊤, ⊤) ∧
    (get_travel_info pNoRoute 1 2).state.cache = [] ∧
    (get_travel_info (get_travel_info pNoRoute 1 2).state 1 2).backend_calls = 1 := by
  refine ⟨?_, ?_, ?_⟩ <;>
    simp [get_travel_info, pNoRoute, sortPair, List.lookup]

/-- C6 as amended: the distance-only network provider variant
(src/optimization/distance_provider.py) caches the definitive no-route
`inf` (so re-querying performs no new request) and leaves connection
failures uncached, while the variant the optimizer uses (src/utils.py
`get_travel_info`) returns `inf` uncached on both failure kinds, so a
repeat query re-issues the request. -/
theorem no_route_caching_by_variant :
    (∀ (p : DistanceProviderNet) (u v : ℕ) (c1 c2 : ℚ × ℚ), u ≠ v →
      p.cache.lookup (sortPair u v) = none →
      p.node_coords u = some c1 → p.node_coords v = some c2 →
      (p.osrm_response c1 c2 = .noRoute →
        (p.get_distance u v).value = ⊤ ∧
        (p.get_distance u v).state.cache.lookup (sortPair u v) = some ⊤ ∧
        ((p.get_distance u v).state.get_distance u v).backend_calls = 0) ∧
      (p.osrm_response c1 c2 = .connectionError →
        (p.get_distance u v).value = ⊤ ∧ (p.get_distance u v).state = p)) ∧
    (∀ (p : TravelInfoProvider) (u v : ℕ) (c1 c2 : ℚ × ℚ), u ≠ v →
      p.cache.lookup (sortPair u v) = none →
      p.node_coords u = some c1 → p.node_coords v = some c2 →
      (p.osrm_response c1 c2 = .noRoute ∨ p.osrm_response c1 c2 = .connectionError) →
      (get_travel_info p u v).value = (⊤, ⊤) ∧
      (get_travel_info p u v).state = p ∧
      (get_travel_info (get_travel_info p u v).state u v).backend_calls = 1) := by
  constructor
  · intro p u v c1 c2 huv hl hc1 hc2
    constructor
    · intro hresp
      have hstep : p.get_distance u v =
          ⟨⊤, { p with cache := (sortPair u v, ⊤) :: p.cache }, 1⟩ := by
        simp only [DistanceProviderNet.get_distance, if_neg huv, hl, hc1, hc2, hresp]
      refine ⟨by rw [hstep], ?_, ?_⟩
      · rw [hstep]
        exact lookup_cons_self _ _ _
      · rw [hstep]
        simp only [DistanceProviderNet.get_distance, if_neg huv, lookup_cons_self]
    · intro hresp
      have hstep : p.get_distance u v = ⟨⊤, p, 1⟩ := by
        simp only [DistanceProviderNet.get_distance, if_neg huv, hl, hc1, hc2, hresp]
      exact ⟨by rw [hstep], by rw [hstep]⟩
  · intro p u v c1 c2 huv hl hc1 hc2 hresp
    have hstep : get_travel_info p u v = ⟨(⊤, ⊤), p, 1⟩ := by
      rcases hresp with hresp | hresp <;>
        simp only [get_travel_info, if_neg huv, hl, hc1, hc2, hresp]
    refine ⟨by rw [hstep], by rw [hstep], ?_⟩
    show (get_travel_info (get_travel_info p u v).state u v).backend_calls = 1
    rw [hstep]
    show (get_travel_info p u v).backend_calls = 1
    rw [hstep]

/-- Witness for the amended C6 at concrete providers: the no-route `inf`
is found in the distance-provider cache after one query, a re-query costs
no backend call, the connection-failure state is unchanged, and the
utils-variant provider re-queries after a no-route answer. -/
theorem no_route_caching_by_variant_witness :
    ((dNoRoute.get_distance 1 2).state.cache.lookup (sortPair 1 2) = some ⊤ ∧
      ((dNoRoute.get_distance 1 2).state.get_distance 1 2).backend_calls = 0) ∧
    (dConnFail.get_distance 1 2).state = dConnFail ∧
    (get_travel_info (get_travel_info pNoRoute 1 2).state 1 2).backend_calls = 1 :=
  ⟨⟨((no_route_caching_by_variant.1 dNoRoute 1 2 (0, 0) (0, 0) (by omega) rfl rfl rfl).1
        rfl).2.1,
    ((no_route_caching_by_variant.1 dNoRoute 1 2 (0, 0) (0, 0) (by omega) rfl rfl rfl).1
        rfl).2.2⟩,
    ((no_route_caching_by_variant.1 dConnFail 1 2 (0, 0) (0, 0) (by omega) rfl rfl rfl).2
        rfl).2,
    (no_route_caching_by_variant.2 pNoRoute 1 2 (0, 0) (0, 0) (by omega) rfl rfl rfl
        (Or.inl rfl)).2.2⟩

theorem demandSum_append (info : ℕ → NodeInfo) (l1 l2 : List ℕ) :
    demandSum info (l1 ++ l2) = demandSum info l1 + demandSum info l2 := by
  simp [demandSum]

theorem tourInterior_closed (c0 : ℕ) (tl : List ℕ) (s : ℕ) :
    tourInterior ((c0 :: tl) ++ [s]) = tl := by
  simp [tourInterior]

theorem antReset_inv (info : ℕ → NodeInfo) (start : ℕ) (cap : ℚ) :
    AntInv info (antReset start cap) := by
  refine ⟨by simp [antReset], by simp [antReset], ?_, by simp [antReset], ?_, ?_, ?_⟩ <;>
    simp [antReset, demandSum]

theorem select_next_node_mem (ti : TravelOracle) (info : ℕ → NodeInfo)
    (σ : ℕ → ℕ) (k : ℕ) (pool : List ℕ) (a : AntState) (n : ℕ)
    (h : select_next_node ti info σ k pool a = some n) :
    n ∈ pool ∧ n ∉ a.visited_nodes ∧
      a.current_load + (info n).demand ≤ a.capacity := by
  have hmem : n ∈ candidate_nodes ti info pool a := List.get?_mem h
  simp only [candidate_nodes, List.mem_filter, Bool.and_eq_true,
    decide_eq_true_eq] at hmem
  exact ⟨hmem.1, hmem.2.1.1, hmem.2.1.2⟩

theorem move_to_node_inv (ti : TravelOracle) (info : ℕ → NodeInfo)
    (a : AntState) (n : ℕ) (hinv : AntInv info a) (hnv : n ∉ a.visited_nodes)
    (hfit : a.current_load + (info n).demand ≤ a.capacity) :
    AntInv info (a.move_to_node ti info n) ∧
    (a.move_to_node ti info n).capacity = a.capacity ∧
    (a.move_to_node ti info n).start_node = a.start_node := by
  obtain ⟨hne, hhead, hint, hvis, hload, _, htours⟩ := hinv
  have hns : n ≠ a.start_node := fun h => hnv (h ▸ hvis)
  obtain ⟨c0, tl, hct⟩ := List.exists_cons_of_ne_nil hne
  have hc0 : c0 = a.start_node := by
    rw [hct] at hhead; simpa using hhead
  simp only [AntState.move_to_node, if_neg hns]
  refine ⟨⟨?_, ?_, ?_, ?_, ?_, ?_, ?_⟩, by trivial, by trivial⟩
  · rw [hct]; simp
  · rw [hct, List.cons_append, List.head?_cons, hc0]
  · rw [hct, List.cons_append]
    intro x hx
    simp only [List.drop_succ_cons, List.drop_zero, List.mem_append,
      List.mem_singleton] at hx
    rcases hx with hx | rfl
    · exact hint x (by rw [hct]; simpa using hx)
    · exact hns
  · exact List.mem_cons_of_mem _ hvis
  · rw [hct, List.cons_append]
    simp only [List.drop_succ_cons, List.drop_zero]
    rw [demandSum_append]
    have hload2 : a.current_load = demandSum info tl := by
      rw [hload, hct]; simp
    rw [hload2]
    simp [demandSum]
  · intro _
    exact hfit
  · exact htours

theorem build_tours_inv (ti : TravelOracle) (info : ℕ → NodeInfo) (σ : ℕ → ℕ) :
    ∀ (fuel k : ℕ) (a : AntState) (pool : List ℕ), AntInv info a →
      AntInv info (build_tours ti info σ fuel k a pool).1 ∧
      (build_tours ti info σ fuel k a pool).1.capacity = a.capacity ∧
      (build_tours ti info σ fuel k a pool).1.start_node = a.start_node
  | 0, _, _, _, h => ⟨h, rfl, rfl⟩
  | fuel + 1, k, a, pool, h => by
    rcases hsel : select_next_node ti info σ k pool a with _ | n
    · have hred : build_tours ti info σ (fuel + 1) k a pool = (a, pool, k) := by
        simp [build_tours, hsel]
      rw [hred]
      exact ⟨h, rfl, rfl⟩
    · have hred : build_tours ti info σ (fuel + 1) k a pool =
          build_tours ti info σ fuel (k + 1) (a.move_to_node ti info n)
            (pool.erase n) := by
        simp [build_tours, hsel]
      rw [hred]
      obtain ⟨_, hnv, hfit⟩ := select_next_node_mem ti info σ k pool a n hsel
      obtain ⟨h1, h2, h3⟩ := move_to_node_inv ti info a n h hnv hfit
      obtain ⟨g1, g2, g3⟩ :=
        build_tours_inv ti info σ fuel (k + 1) (a.move_to_node ti info n)
          (pool.erase n) h1
      exact ⟨g1, by rw [g2, h2], by rw [g3, h3]⟩

theorem finalize_solution_tours (ti : TravelOracle) (info : ℕ → NodeInfo)
    (a : AntState) (hinv : AntInv info a) :
    (∀ t ∈ (a.finalize_solution ti).tours,
      TourShape a.start_node t ∧ interiorDemand info t ≤ a.capacity) ∧
    (a.finalize_solution ti).capacity = a.capacity ∧
    (a.finalize_solution ti).start_node = a.start_node := by
  obtain ⟨hne, hhead, hint, _, hload, hle, htours⟩ := hinv
  unfold AntState.finalize_solution
  by_cases hcond : a.current_tour ≠ [] ∧ a.current_tour.getLast? ≠ some a.start_node
  · rw [if_pos hcond]
    obtain ⟨c0, tl, hct⟩ := List.exists_cons_of_ne_nil hne
    have hc0 : c0 = a.start_node := by
      rw [hct] at hhead; simpa using hhead
    have htl : tl ≠ [] := by
      intro hnil
      apply hcond.2
      rw [hct, hnil, hc0]
      simp
    refine ⟨?_, rfl, rfl⟩
    intro t ht
    simp only [List.mem_append, List.mem_singleton] at ht
    rcases ht with ht | rfl
    · exact htours t ht
    · have hload2 : a.current_load = demandSum info tl := by
        rw [hload, hct]; simp
      refine ⟨⟨?_, ?_, ?_⟩, ?_⟩
      · rw [hct, List.cons_append, List.head?_cons, hc0]
      · rw [hct]
        exact List.getLast?_concat _
      · rw [hct, tourInterior_closed]
        intro x hx
        exact hint x (by rw [hct]; simpa using hx)
      · rw [interiorDemand, hct, tourInterior_closed, ← hload2]
        apply hle
        rw [hct]
        simpa using htl
  · rw [if_neg hcond]
    exact ⟨htours, rfl, rfl⟩

theorem construct_colony_sound (ti : TravelOracle) (info : ℕ → NodeInfo)
    (σ : ℕ → ℕ) (start : ℕ) :
    ∀ (caps : List ℚ) (k : ℕ) (pool : List ℕ),
      ∀ a ∈ (construct_colony ti info σ start caps k pool).ants,
        a.start_node = start ∧ a.capacity ∈ caps ∧
        ∀ t ∈ a.tours, TourShape start t ∧ interiorDemand info t ≤ a.capacity
  | [], k, pool => by simp [construct_colony]
  | cap :: caps, k, pool => by
    by_cases hp : pool.isEmpty
    · simp [construct_colony, hp]
    · intro a ha
      have hred : construct_colony ti info σ start (cap :: caps) k pool =
          ⟨(build_tours ti info σ (pool.length + 1) k (antReset start cap)
              pool).1.finalize_solution ti ::
            (construct_colony ti info σ start caps
              (build_tours ti info σ (pool.length + 1) k (antReset start cap) pool).2.2
              (build_tours ti info σ (pool.length + 1) k (antReset start cap) pool).2.1).ants,
            (construct_colony ti info σ start caps
              (build_tours ti info σ (pool.length + 1) k (antReset start cap) pool).2.2
              (build_tours ti info σ (pool.length + 1) k (antReset start cap) pool).2.1).pool,
            (construct_colony ti info σ start caps
              (build_tours ti info σ (pool.length + 1) k (antReset start cap) pool).2.2
              (build_tours ti info σ (pool.length + 1) k (antReset start cap) pool).2.1).rand_pos⟩ := by
        simp [construct_colony, hp]
      rw [hred] at ha
      rcases List.mem_cons.mp ha with rfl | ha
      · obtain ⟨h1, h2, h3⟩ :=
          build_tours_inv ti info σ (pool.length + 1) k (antReset start cap) pool
            (antReset_inv info start cap)
        obtain ⟨g1, g2, g3⟩ := finalize_solution_tours ti info _ h1
        have hstart : (antReset start cap).start_node = start := rfl
        have hcap : (antReset start cap).capacity = cap := rfl
        refine ⟨by rw [g3, h3, hstart], by rw [g2, h2, hcap]; exact List.mem_cons_self _ _, ?_⟩
        intro t ht
        have hth := g1 t ht
        rw [h3, hstart] at hth
        rw [g2]
        exact hth
      · obtain ⟨r1, r2, r3⟩ := construct_colony_sound ti info σ start caps _ _ a ha
        exact ⟨r1, List.mem_cons_of_mem _ r2, r3⟩

theorem run_step_best_sound (ti : TravelOracle) (info : ℕ → NodeInfo)
    (vfc : ℚ) (start : ℕ) (caps : List ℚ) (pool0 : List ℕ) (σ1 : ℕ → ℕ)
    (st : RunState) (P : List ℕ → Prop)
    (hst : ∀ t ∈ st.global_best_solution, P t)
    (hP : ∀ a ∈ (construct_colony ti info σ1 start caps 0 pool0).ants,
        ∀ t ∈ a.tours, P t) :
    ∀ t ∈ (run_step ti info vfc start caps pool0 σ1 st).global_best_solution, P t := by
  simp only [run_step]
  by_cases hc : iteration_cost vfc (construct_colony ti info σ1 start caps 0 pool0).ants
      (construct_colony ti info σ1 start caps 0 pool0).pool < st.global_best_cost
  · rw [if_pos hc]
    intro t ht
    simp only [colony_tours, List.mem_flatten, List.mem_map] at ht
    obtain ⟨ts, ⟨a, ha, rfl⟩, hts⟩ := ht
    exact hP a ha t hts
  · rw [if_neg hc]
    exact hst

theorem run_best_solution_sound (ti : TravelOracle) (info : ℕ → NodeInfo)
    (vfc : ℚ) (start : ℕ) (caps : List ℚ) (node_ids : List ℕ) (σ : ℕ → ℕ → ℕ)
    (iters : ℕ) (P : List ℕ → Prop)
    (hP : ∀ (σ1 : ℕ → ℕ) (pool : List ℕ),
      ∀ a ∈ (construct_colony ti info σ1 start caps 0 pool).ants,
        ∀ t ∈ a.tours, P t) :
    ∀ t ∈ (aco_run ti info vfc start caps node_ids σ iters).global_best_solution, P t := by
  unfold aco_run
  have hgen : ∀ (l : List ℕ) (st : RunState),
      (∀ t ∈ st.global_best_solution, P t) →
      ∀ t ∈ (l.foldl (fun st i =>
          run_step ti info vfc start caps
            (node_ids.filter fun n => decide (n ≠ start)) (σ i) st)
          st).global_best_solution, P t := by
    intro l
    induction l with
    | nil => intro st hst; simpa using hst
    | cons i l ih =>
      intro st hst
      simp only [List.foldl_cons]
      exact ih _ (run_step_best_sound ti info vfc start caps _ (σ i) st P hst
        (hP (σ i) _))
  exact hgen _ init_run_state (by simp [init_run_state])

/-- C1: in every colony solution, the sum of the demands of a tour's
interior stops never exceeds the capacity of the ant that built the tour
(`_select_next_node` excludes any stop whose demand would overflow the
load), and consequently every tour of the best solution returned by
`ACOptimizer.run` fits the capacity of one of the fleet's vehicles. -/
theorem capacity_invariant (ti : TravelOracle) (info : ℕ → NodeInfo)
    (vfc : ℚ) (start : ℕ) (caps : List ℚ) (node_ids : List ℕ)
    (σ : ℕ → ℕ → ℕ) (iters : ℕ) :
    (∀ (σ1 : ℕ → ℕ) (pool : List ℕ),
      ∀ a ∈ (construct_colony ti info σ1 start caps 0 pool).ants,
        ∀ t ∈ a.tours, interiorDemand info t ≤ a.capacity) ∧
    (∀ t ∈ (aco_run ti info vfc start caps node_ids σ iters).global_best_solution,
      ∃ c ∈ caps, interiorDemand info t ≤ c) := by
  constructor
  · intro σ1 pool a ha t ht
    exact ((construct_colony_sound ti info σ1 start caps 0 pool a ha).2.2 t ht).2
  · exact run_best_solution_sound ti info vfc start caps node_ids σ iters _
      (fun σ1 pool a ha t ht =>
        ⟨a.capacity, (construct_colony_sound ti info σ1 start caps 0 pool a ha).2.1,
          ((construct_colony_sound ti info σ1 start caps 0 pool a ha).2.2 t ht).2⟩)

/-- C4: every tour of every produced solution begins and ends with the
depot id — tours are closed only by a depot move, and
`finalize_solution` appends the closing depot whenever the current tour
does not already end there. -/
theorem tour_well_formedness (ti : TravelOracle) (info : ℕ → NodeInfo)
    (vfc : ℚ) (start : ℕ) (caps : List ℚ) (node_ids : List ℕ)
    (σ : ℕ → ℕ → ℕ) (iters : ℕ) :
    (∀ (σ1 : ℕ → ℕ) (pool : List ℕ),
      ∀ a ∈ (construct_colony ti info σ1 start caps 0 pool).ants,
        ∀ t ∈ a.tours, t.head? = some start ∧ t.getLast? = some start) ∧
    (∀ t ∈ (aco_run ti info vfc start caps node_ids σ iters).global_best_solution,
      t.head? = some start ∧ t.getLast? = some start) := by
  constructor
  · intro σ1 pool a ha t ht
    have h := ((construct_colony_sound ti info σ1 start caps 0 pool a ha).2.2 t ht).1
    exact ⟨h.1, h.2.1⟩
  · exact run_best_solution_sound ti info vfc start caps node_ids σ iters _
      (fun σ1 pool a ha t ht =>
        ⟨((construct_colony_sound ti info σ1 start caps 0 pool a ha).2.2 t ht).1.1,
          ((construct_colony_sound ti info σ1 start caps 0 pool a ha).2.2 t ht).1.2.1⟩)

theorem run_step_gb_le (ti : TravelOracle) (info : ℕ → NodeInfo) (vfc : ℚ)
    (start : ℕ) (caps : List ℚ) (pool0 : List ℕ) (σ1 : ℕ → ℕ) (st : RunState) :
    (run_step ti info vfc start caps pool0 σ1 st).global_best_cost ≤
      st.global_best_cost := by
  simp only [run_step]
  by_cases hc : iteration_cost vfc (construct_colony ti info σ1 start caps 0 pool0).ants
      (construct_colony ti info σ1 start caps 0 pool0).pool < st.global_best_cost
  · rw [if_pos hc]
    exact le_of_lt hc
  · rw [if_neg hc]

theorem run_step_hist (ti : TravelOracle) (info : ℕ → NodeInfo) (vfc : ℚ)
    (start : ℕ) (caps : List ℚ) (pool0 : List ℕ) (σ1 : ℕ → ℕ) (st : RunState) :
    (run_step ti info vfc start caps pool0 σ1 st).cost_history =
      st.cost_history ++ [(run_step ti info vfc start caps pool0 σ1 st).global_best_cost] := by
  simp only [run_step]
  by_cases hc : iteration_cost vfc (construct_colony ti info σ1 start caps 0 pool0).ants
      (construct_colony ti info σ1 start caps 0 pool0).pool < st.global_best_cost
  · rw [if_pos hc]
  · rw [if_neg hc]

theorem foldl_hist_inv (f : RunState → ℕ → RunState)
    (hle : ∀ st i, (f st i).global_best_cost ≤ st.global_best_cost)
    (hhist : ∀ st i, (f st i).cost_history =
      st.cost_history ++ [(f st i).global_best_cost]) :
    ∀ (l : List ℕ) (st : RunState),
      List.Chain' (fun a b => b ≤ a) st.cost_history →
      (∀ x ∈ st.cost_history.getLast?, st.global_best_cost ≤ x) →
      List.Chain' (fun a b => b ≤ a) (l.foldl f st).cost_history ∧
      ∀ x ∈ (l.foldl f st).cost_history.getLast?, (l.foldl f st).global_best_cost ≤ x
  | [], _, h1, h2 => ⟨h1, h2⟩
  | i :: l, st, h1, h2 => by
    simp only [List.foldl_cons]
    apply foldl_hist_inv f hle hhist l (f st i)
    · rw [hhist st i, List.chain'_append]
      refine ⟨h1, List.chain'_singleton _, ?_⟩
      intro x hx y hy
      simp only [List.head?_cons, Option.mem_def, Option.some.injEq] at hy
      subst hy
      exact le_trans (hle st i) (h2 x hx)
    · intro x hx
      rw [hhist st i, List.getLast?_concat] at hx
      simp only [Option.mem_def, Option.some.injEq] at hx
      subst hx
      exact le_rfl

/-- C2: the `cost_history` returned by `ACOptimizer.run` is non-increasing
element-to-element — each entry is the global best cost, which is replaced
only on a strictly lower total cost. -/
theorem cost_history_monotone (ti : TravelOracle) (info : ℕ → NodeInfo)
    (vfc : ℚ) (start : ℕ) (caps : List ℚ) (node_ids : List ℕ)
    (σ : ℕ → ℕ → ℕ) (iters : ℕ) (i : ℕ)
    (h : i + 1 < (aco_run ti info vfc start caps node_ids σ iters).cost_history.length) :
    (aco_run ti info vfc start caps node_ids σ iters).cost_history.getD (i + 1) ⊤ ≤
      (aco_run ti info vfc start caps node_ids σ iters).cost_history.getD i ⊤ := by
  have hch : List.Chain' (fun a b => b ≤ a)
      (aco_run ti info vfc start caps node_ids σ iters).cost_history := by
    have hrun : aco_run ti info vfc start caps node_ids σ iters =
        (List.range iters).foldl
          (fun st i => run_step ti info vfc start caps
            (node_ids.filter fun n => decide (n ≠ start)) (σ i) st)
          init_run_state := rfl
    rw [hrun]
    exact (foldl_hist_inv _
      (fun st i => run_step_gb_le ti info vfc start caps _ (σ i) st)
      (fun st i => run_step_hist ti info vfc start caps _ (σ i) st)
      (List.range iters) init_run_state (by simp [init_run_state])
      (by simp [init_run_state])).1
  have h0 : i < (aco_run ti info vfc start caps node_ids σ iters).cost_history.length :=
    Nat.lt_of_succ_lt h
  rw [List.getD_eq_getElem _ _ h, List.getD_eq_getElem _ _ h0]
  have := List.chain'_iff_get.mp hch i (by omega)
  simpa [List.get_eq_getElem] using this

/-- Witness for C2: on a concrete two-iteration run the history has length
2 and its second entry is bounded by its first. -/
theorem cost_history_monotone_witness :
    0 + 1 < (aco_run ti0 info0 0 1 [5] [1, 2] sigmaR 2).cost_history.length ∧
    (aco_run ti0 info0 0 1 [5] [1, 2] sigmaR 2).cost_history.getD (0 + 1) ⊤ ≤
      (aco_run ti0 info0 0 1 [5] [1, 2] sigmaR 2).cost_history.getD 0 ⊤ :=
  have hlen : 0 + 1 < (aco_run ti0 info0 0 1 [5] [1, 2] sigmaR 2).cost_history.length := by
    norm_num +decide [aco_run, run_step, construct_colony, build_tours, select_next_node,
      candidate_nodes, ti0, info0, antReset, lastNode, sigmaR, AntState.move_to_node,
      AntState.finalize_solution, iteration_cost, colony_cost, colony_tours, colony_distance,
      colony_wait, colony_violated, num_used_tours, init_run_state, TIME_PENALTY,
      WAIT_PENALTY_MULTIPLIER, List.range_succ]
  ⟨hlen, cost_history_monotone ti0 info0 0 1 [5] [1, 2] sigmaR 2 0 hlen⟩

/-- Witness for C1: the concrete run returns the solution `[[1, 2, 1]]`,
and its tour's interior demand `2` is bounded by a fleet capacity. -/
theorem capacity_invariant_witness :
    [1, 2, 1] ∈ (aco_run ti0 info0 0 1 [5] [1, 2] sigmaR 1).global_best_solution ∧
    ∃ c ∈ ([5] : List ℚ), interiorDemand info0 [1, 2, 1] ≤ c :=
  have hmem : [1, 2, 1] ∈
      (aco_run ti0 info0 0 1 [5] [1, 2] sigmaR 1).global_best_solution := by
    norm_num +decide [aco_run, run_step, construct_colony, build_tours, select_next_node,
      candidate_nodes, ti0, info0, antReset, lastNode, sigmaR, AntState.move_to_node,
      AntState.finalize_solution, iteration_cost, colony_cost, colony_tours, colony_distance,
      colony_wait, colony_violated, num_used_tours, init_run_state, TIME_PENALTY,
      WAIT_PENALTY_MULTIPLIER, List.range_succ]
  ⟨hmem, (capacity_invariant ti0 info0 0 1 [5] [1, 2] sigmaR 1).2 [1, 2, 1] hmem⟩

/-- Witness for C4: the concrete run's returned tour `[1, 2, 1]` begins and
ends with the depot id `1`. -/
theorem tour_well_formedness_witness :
    [1, 2, 1] ∈ (aco_run ti0 info0 0 1 [5] [1, 2] sigmaR 1).global_best_solution ∧
    ([1, 2, 1] : List ℕ).head? = some 1 ∧ ([1, 2, 1] : List ℕ).getLast? = some 1 :=
  have hmem : [1, 2, 1] ∈
      (aco_run ti0 info0 0 1 [5] [1, 2] sigmaR 1).global_best_solution := by
    norm_num +decide [aco_run, run_step, construct_colony, build_tours, select_next_node,
      candidate_nodes, ti0, info0, antReset, lastNode, sigmaR, AntState.move_to_node,
      AntState.finalize_solution, iteration_cost, colony_cost, colony_tours, colony_distance,
      colony_wait, colony_violated, num_used_tours, init_run_state, TIME_PENALTY,
      WAIT_PENALTY_MULTIPLIER, List.range_succ]
  ⟨hmem, (tour_well_formedness ti0 info0 0 1 [5] [1, 2] sigmaR 1).2 [1, 2, 1] hmem⟩

/-- C7: when stops remain unvisited after all agents finished, the
iteration's cost is `inf` and neither the global best solution nor its
cost is replaced by that iteration. -/
theorem infeasible_iteration_never_best (ti : TravelOracle) (info : ℕ → NodeInfo)
    (vfc : ℚ) (start : ℕ) (caps : List ℚ) (pool0 : List ℕ) (σ1 : ℕ → ℕ)
    (st : RunState)
    (h : (construct_colony ti info σ1 start caps 0 pool0).pool ≠ []) :
    iteration_cost vfc (construct_colony ti info σ1 start caps 0 pool0).ants
      (construct_colony ti info σ1 start caps 0 pool0).pool = ⊤ ∧
    (run_step ti info vfc start caps pool0 σ1 st).global_best_cost =
      st.global_best_cost ∧
    (run_step ti info vfc start caps pool0 σ1 st).global_best_solution =
      st.global_best_solution := by
  have hcost : iteration_cost vfc (construct_colony ti info σ1 start caps 0 pool0).ants
      (construct_colony ti info σ1 start caps 0 pool0).pool = ⊤ := by
    unfold iteration_cost
    rw [if_neg]
    simpa [List.isEmpty_iff] using h
  refine ⟨hcost, ?_, ?_⟩ <;>
  · simp only [run_step, hcost]
    rw [if_neg not_top_lt]

/-- Witness for C7: with a single vehicle of capacity 5 and a stop of
demand 10 the pool stays nonempty, the cost is infinite and the initial
global best survives the iteration. -/
theorem infeasible_iteration_never_best_witness :
    (construct_colony ti0 info_heavy sigma0 1 [5] 0 [2]).pool ≠ [] ∧
    iteration_cost 0 (construct_colony ti0 info_heavy sigma0 1 [5] 0 [2]).ants
      (construct_colony ti0 info_heavy sigma0 1 [5] 0 [2]).pool = ⊤ ∧
    (run_step ti0 info_heavy 0 1 [5] [2] sigma0 init_run_state).global_best_cost =
      init_run_state.global_best_cost :=
  have hpool : (construct_colony ti0 info_heavy sigma0 1 [5] 0 [2]).pool ≠ [] := by
    norm_num +decide [construct_colony, build_tours, select_next_node, candidate_nodes,
      ti0, info_heavy, antReset, lastNode, sigma0, AntState.move_to_node,
      AntState.finalize_solution]
  ⟨hpool,
    (infeasible_iteration_never_best ti0 info_heavy 0 1 [5] [2] sigma0
      init_run_state hpool).1,
    (infeasible_iteration_never_best ti0 info_heavy 0 1 [5] [2] sigma0
      init_run_state hpool).2.1⟩

theorem used_iff_visits (start : ℕ) (t : List ℕ) (hs : TourShape start t) :
    decide (2 < t.length) = visits_a_stop start t := by
  obtain ⟨hh, hl, hi⟩ := hs
  have hne : t ≠ [] := by
    intro hnil; rw [hnil] at hh; simp at hh
  obtain ⟨c0, rest, rfl⟩ := List.exists_cons_of_ne_nil hne
  have hc0 : c0 = start := by simpa using hh
  rcases List.eq_nil_or_concat rest with rfl | ⟨mid, z, rfl⟩
  · simp [visits_a_stop, hc0]
  · simp only [List.concat_eq_append] at hh hl hi hne ⊢
    have hz : z = start := by
      rw [show c0 :: (mid ++ [z]) = (c0 :: mid) ++ [z] by simp,
        List.getLast?_concat] at hl
      simpa using hl
    have hi2 : ∀ x ∈ mid, x ≠ start := by
      intro x hx
      apply hi
      rw [show c0 :: (mid ++ [z]) = (c0 :: mid) ++ [z] by simp,
        tourInterior_closed]
      exact hx
    cases mid with
    | nil => simp [visits_a_stop, hc0, hz]
    | cons m ms =>
      have hm : m ≠ start := hi2 m (by simp)
      have hlen : 2 < (c0 :: ((m :: ms) ++ [z])).length := by
        simp only [List.length_cons, List.length_append, List.length_singleton]
        omega
      rw [decide_eq_true hlen]
      simp [visits_a_stop, hm]

theorem num_used_eq_visits_count (start : ℕ) (tours : List (List ℕ))
    (hshape : ∀ t ∈ tours, TourShape start t) :
    num_used_tours tours = (tours.filter (visits_a_stop start)).length := by
  unfold num_used_tours
  congr 1
  exact List.filter_congr fun t ht => used_iff_visits start t (hshape t ht)

/-- C3: for every colony solution whose iteration leaves no stop uncovered,
the optimizer's total cost equals
`distance_sum + usedVehicleCount * fixedCost + (large penalty if violated)
 + waitSum * waitWeight`, where a used vehicle is one whose tour visits at
least one non-depot stop. -/
theorem full_coverage_cost_formula (ti : TravelOracle) (info : ℕ → NodeInfo)
    (σ1 : ℕ → ℕ) (vfc : ℚ) (start : ℕ) (caps : List ℚ) (pool0 : List ℕ)
    (h : (construct_colony ti info σ1 start caps 0 pool0).pool = []) :
    iteration_cost vfc (construct_colony ti info σ1 start caps 0 pool0).ants
        (construct_colony ti info σ1 start caps 0 pool0).pool =
      ((colony_distance (construct_colony ti info σ1 start caps 0 pool0).ants +
        ((((colony_tours (construct_colony ti info σ1 start caps 0 pool0).ants).filter
            (visits_a_stop start)).length : ℚ)) * vfc +
        (if colony_violated (construct_colony ti info σ1 start caps 0 pool0).ants
          then TIME_PENALTY else 0) +
        colony_wait (construct_colony ti info σ1 start caps 0 pool0).ants *
          WAIT_PENALTY_MULTIPLIER : ℚ) : WithTop ℚ) := by
  have hshape : ∀ t ∈ colony_tours (construct_colony ti info σ1 start caps 0 pool0).ants,
      TourShape start t := by
    intro t ht
    simp only [colony_tours, List.mem_flatten, List.mem_map] at ht
    obtain ⟨ts, ⟨a, ha, rfl⟩, hts⟩ := ht
    exact ((construct_colony_sound ti info σ1 start caps 0 pool0 a ha).2.2 t hts).1
  unfold iteration_cost
  rw [h]
  rw [if_pos (by simp)]
  rw [colony_cost, num_used_eq_visits_count start _ hshape]

/-- Witness for C3: the concrete feasible run covers all stops and its
iteration cost equals the claimed formula. -/
theorem full_coverage_cost_formula_witness :
    (construct_colony ti0 info0 sigma0 1 [5] 0 [2]).pool = [] ∧
    iteration_cost 0 (construct_colony ti0 info0 sigma0 1 [5] 0 [2]).ants
        (construct_colony ti0 info0 sigma0 1 [5] 0 [2]).pool =
      ((colony_distance (construct_colony ti0 info0 sigma0 1 [5] 0 [2]).ants +
        ((((colony_tours (construct_colony ti0 info0 sigma0 1 [5] 0 [2]).ants).filter
            (visits_a_stop 1)).length : ℚ)) * 0 +
        (if colony_violated (construct_colony ti0 info0 sigma0 1 [5] 0 [2]).ants
          then TIME_PENALTY else 0) +
        colony_wait (construct_colony ti0 info0 sigma0 1 [5] 0 [2]).ants *
          WAIT_PENALTY_MULTIPLIER : ℚ) : WithTop ℚ) :=
  have hpool : (construct_colony ti0 info0 sigma0 1 [5] 0 [2]).pool = [] := by
    norm_num +decide [construct_colony, build_tours, select_next_node, candidate_nodes,
      ti0, info0, antReset, lastNode, sigma0, AntState.move_to_node,
      AntState.finalize_solution]
  ⟨hpool, full_coverage_cost_formula ti0 info0 sigma0 0 1 [5] [2] hpool⟩

/-- C9 counterexample: a violation-flagged solution with zero distance,
zero wait and zero fixed cost has total cost exactly the penalty constant,
not strictly greater. -/
theorem violation_cost_not_strict :
    colony_cost 0 0 0 true 1 = TIME_PENALTY ∧
    ¬ TIME_PENALTY < colony_cost 0 0 0 true 1 := by
  norm_num [colony_cost, TIME_PENALTY, WAIT_PENALTY_MULTIPLIER]

/-- C9 as amended: a violation-flagged solution costs at least the large
penalty constant (strictly more as soon as any of distance, fixed cost or
wait is positive), and a non-violating solution of ordinary cost (below
the constant) is always strictly cheaper, hence preferred by the
strictly-lower global-best comparison. -/
theorem violation_dominance (vfc d w : ℚ) (used : ℕ)
    (hd : 0 ≤ d) (hw : 0 ≤ w) (hf : 0 ≤ vfc) :
    TIME_PENALTY ≤ colony_cost vfc d w true used ∧
    (0 < d + (used : ℚ) * vfc + w * WAIT_PENALTY_MULTIPLIER →
      TIME_PENALTY < colony_cost vfc d w true used) ∧
    ∀ (vfc2 d2 w2 : ℚ) (used2 : ℕ),
      colony_cost vfc2 d2 w2 false used2 < TIME_PENALTY →
      colony_cost vfc2 d2 w2 false used2 < colony_cost vfc d w true used := by
  have hfix : (0 : ℚ) ≤ (used : ℚ) * vfc := mul_nonneg (Nat.cast_nonneg used) hf
  have hwm : (0 : ℚ) ≤ w * WAIT_PENALTY_MULTIPLIER :=
    mul_nonneg hw (by norm_num [WAIT_PENALTY_MULTIPLIER])
  have h1 : TIME_PENALTY ≤ colony_cost vfc d w true used := by
    simp only [colony_cost, if_pos]
    linarith
  refine ⟨h1, ?_, fun vfc2 d2 w2 used2 hlt => lt_of_lt_of_le hlt h1⟩
  intro hpos
  simp only [colony_cost, if_pos]
  linarith

/-- Witness for the amended C9: at distance 5, unit fixed cost and one
used vehicle, a flagged solution costs strictly more than the penalty and
a cheap clean solution is preferred. -/
theorem violation_dominance_witness :
    ((0 : ℚ) ≤ 5 ∧ (0 : ℚ) ≤ 0 ∧ (0 : ℚ) ≤ 1) ∧
    TIME_PENALTY ≤ colony_cost 1 5 0 true 1 ∧
    colony_cost 1 5 0 false 1 < colony_cost 1 5 0 true 1 :=
  ⟨⟨by norm_num, by norm_num, by norm_num⟩,
    (violation_dominance 1 5 0 1 (by norm_num) (by norm_num) (by norm_num)).1,
    (violation_dominance 1 5 0 1 (by norm_num) (by norm_num) (by norm_num)).2.2
      1 5 0 1 (by norm_num [colony_cost, TIME_PENALTY, WAIT_PENALTY_MULTIPLIER])⟩

/-- C10 counterexample: moving back to the depot does change the
accumulated distance — it grows by the length of the closing leg (the
claim asserts it is unchanged). -/
theorem depot_return_distance_counterexample :
    (antCx.move_to_node tiCx info0 1).total_distance ≠ antCx.total_distance := by
  norm_num [AntState.move_to_node, antCx, tiCx, info0, lastNode]

/-- C10 as amended: a depot move resets only the interior tour and the
load; the clock advances by the travel time (it is not reset), the visited
set, wait time and violation flag are unchanged, the closed tour is
appended, and the accumulated distance grows by the closing leg's
distance. -/
theorem depot_return_frame (ti : TravelOracle) (info : ℕ → NodeInfo) (a : AntState) :
    (a.move_to_node ti info a.start_node).current_load = 0 ∧
    (a.move_to_node ti info a.start_node).current_tour = [a.start_node] ∧
    (a.move_to_node ti info a.start_node).current_time =
      a.current_time + (ti (lastNode a) a.start_node).2 ∧
    (a.move_to_node ti info a.start_node).visited_nodes = a.visited_nodes ∧
    (a.move_to_node ti info a.start_node).total_wait_time = a.total_wait_time ∧
    (a.move_to_node ti info a.start_node).time_window_violated =
      a.time_window_violated ∧
    (a.move_to_node ti info a.start_node).tours =
      a.tours ++ [a.current_tour ++ [a.start_node]] ∧
    (a.move_to_node ti info a.start_node).total_distance =
      a.total_distance + (ti (lastNode a) a.start_node).1 := by
  simp [AntState.move_to_node]

/-- C8 as amended: after the MMAS update step, every stored pheromone
value lies within `[pheromone_min, pheromone_max]` whenever
`pheromone_min ≤ pheromone_max`; the derived bounds satisfy this except
for problem sizes where the closed-form minimum exceeds the maximum (for
example `n = 4`), in which case the clamp sets every value to
`pheromone_min` above `pheromone_max`. -/
theorem mmas_clamp_within_bounds {α : Type} [LinearOrderedField α]
    (mmas_rho pmin pmax : α) (best : List (List ℕ) × Option α)
    (ph : List ((ℕ × ℕ) × α)) (h : pmin ≤ pmax) :
    ∀ ev ∈ update_pheromones_mmas mmas_rho pmin pmax best ph,
      pmin ≤ ev.2 ∧ ev.2 ≤ pmax := by
  intro ev hev
  simp only [update_pheromones_mmas, clamp_store, List.mem_map] at hev
  obtain ⟨x, _, rfl⟩ := hev
  exact ⟨le_max_left _ _, max_le h (min_le_right _ _)⟩

/-- Witness for the amended C8: with bounds `[0, 1]` the updated store's
single entry `((1, 2), 1)` lies within the bounds. -/
theorem mmas_clamp_within_bounds_witness :
    ((0 : ℚ) ≤ 1) ∧
    (((1, 2), (1 : ℚ)) ∈
      update_pheromones_mmas (1/2 : ℚ) 0 1 ([[1, 2, 1]], some 1) [((1, 2), 1)]) ∧
    ((0 : ℚ) ≤ (((1, 2), (1 : ℚ)) : (ℕ × ℕ) × ℚ).2 ∧
      (((1, 2), (1 : ℚ)) : (ℕ × ℕ) × ℚ).2 ≤ 1) :=
  have hmem : (((1, 2), (1 : ℚ)) : (ℕ × ℕ) × ℚ) ∈
      update_pheromones_mmas (1/2 : ℚ) 0 1 ([[1, 2, 1]], some 1) [((1, 2), 1)] := by
    norm_num [update_pheromones_mmas, evaporate, apply_pheromone_deposit, clamp_store,
      edge_occurrences, tour_edges, sortPair]
  ⟨by norm_num, hmem,
    mmas_clamp_within_bounds (1/2 : ℚ) 0 1 ([[1, 2, 1]], some 1) [((1, 2), 1)]
      (by norm_num) ((1, 2), 1) hmem⟩

/-- C8 counterexample: at problem size `n = 4` (with `mmas_rho = 1/5` and
global best cost `1`), the derived `pheromone_min` exceeds
`pheromone_max`, so after the MMAS update the stored value — clamped to
`pheromone_min` — does not lie within `[pheromone_min, pheromone_max]`. -/
theorem mmas_clamp_counterexample :
    ¬ (∀ ev ∈ update_pheromones_mmas (1/5 : ℝ)
          (update_mmas_pheromone_limits 4 (1/5) 1).1
          (update_mmas_pheromone_limits 4 (1/5) 1).2
          ([[1, 2, 1]], some 1) [((1, 2), 1)],
        (update_mmas_pheromone_limits 4 (1/5) 1).1 ≤ ev.2 ∧
          ev.2 ≤ (update_mmas_pheromone_limits 4 (1/5) 1).2) := by
  intro hall
  have hq_pos : (0 : ℝ) < (1/20 : ℝ) ^ ((1 : ℝ) / ((4 : ℕ) : ℝ)) :=
    Real.rpow_pos_of_pos (by norm_num) _
  have hq4 : ((1/20 : ℝ) ^ ((1 : ℝ) / ((4 : ℕ) : ℝ))) ^ (4 : ℕ) = 1/20 := by
    rw [← Real.rpow_natCast ((1/20 : ℝ) ^ ((1 : ℝ) / ((4 : ℕ) : ℝ))) 4,
      ← Real.rpow_mul (by norm_num : (0 : ℝ) ≤ 1/20)]
    norm_num
  have hqlt : (1/20 : ℝ) ^ ((1 : ℝ) / ((4 : ℕ) : ℝ)) < 1/2 := by
    by_contra hle
    push_neg at hle
    have hpow : (1/2 : ℝ) ^ (4 : ℕ) ≤
        ((1/20 : ℝ) ^ ((1 : ℝ) / ((4 : ℕ) : ℝ))) ^ (4 : ℕ) :=
      pow_le_pow_left₀ (by norm_num) hle 4
    rw [hq4] at hpow
    norm_num at hpow
  have hmax : (update_mmas_pheromone_limits 4 (1/5) 1).2 = 5 := by
    simp only [update_mmas_pheromone_limits]
    norm_num
  have hden : (0 : ℝ) < (((4 : ℕ) : ℝ) / 2 - 1) * ((1/20 : ℝ) ^ ((1 : ℝ) / ((4 : ℕ) : ℝ))) := by
    have h4 : (((4 : ℕ) : ℝ) / 2 - 1) = 1 := by norm_num
    rw [h4, one_mul]
    exact hq_pos
  have hmin : (update_mmas_pheromone_limits 4 (1/5) 1).1 =
      5 * (1 - (1/20 : ℝ) ^ ((1 : ℝ) / ((4 : ℕ) : ℝ))) /
        ((((4 : ℕ) : ℝ) / 2 - 1) * ((1/20 : ℝ) ^ ((1 : ℝ) / ((4 : ℕ) : ℝ)))) := by
    simp only [update_mmas_pheromone_limits, if_pos hden]
    norm_num
  have hminmax : (5 : ℝ) < (update_mmas_pheromone_limits 4 (1/5) 1).1 := by
    rw [hmin]
    rw [lt_div_iff₀ hden]
    have h4 : (((4 : ℕ) : ℝ) / 2 - 1) = 1 := by norm_num
    rw [h4, one_mul]
    nlinarith [hqlt, hq_pos]
  have hmem : (((1, 2), max (update_mmas_pheromone_limits 4 (1/5) 1).1
        (min ((1 : ℝ) * (1 - 1/5) + 1/1 * ((2 : ℕ) : ℝ))
          (update_mmas_pheromone_limits 4 (1/5) 1).2)) : (ℕ × ℕ) × ℝ) ∈
      update_pheromones_mmas (1/5 : ℝ)
        (update_mmas_pheromone_limits 4 (1/5) 1).1
        (update_mmas_pheromone_limits 4 (1/5) 1).2
        ([[1, 2, 1]], some 1) [((1, 2), 1)] := by
    simp [update_pheromones_mmas, evaporate, apply_pheromone_deposit, clamp_store,
      edge_occurrences, tour_edges, sortPair]
  have hclamped := hall _ hmem
  have hle2 : (update_mmas_pheromone_limits 4 (1/5) 1).1 ≤
      (update_mmas_pheromone_limits 4 (1/5) 1).2 :=
    le_trans (le_max_left _ _) hclamped.2
  rw [hmax] at hle2
  exact absurd hle2 (not_le.mpr hminmax)

end CorluACO
